import Mathlib

/-! KInput remote injector: export resolution and library registry

A shallow embedding of `RemoteProcFinder.cpp` (the remote symbol resolver) and
`Injector.cpp` (the process injector) of the KInput control library.

Conventions of the embedding

* Pointers, handles, `DWORD`s and bytes are natural numbers; `0` is `NULL`.
  Pointer arithmetic on `DWORD_PTR` wraps modulo `2 ^ ptrBits`.
* The Windows primitives the code calls (`OpenProcess`, the Toolhelp module
  snapshot, `ReadProcessMemory`, `VirtualAllocEx`, ...) are not part of the
  program: they are fields of an environment record and every theorem
  quantifies over them.
* A C string argument (`char*`) is the list of its characters before the
  terminating NUL.
* Executions the C++ standard or the CRT leave undefined (an index outside a
  local array, a runtime-constraint violation of `strcat_s`) end in the
  distinguished result `Ret.fault`.
* `malloc` is assumed to succeed; every `malloc` and `free` is recorded, so
  that the release of scratch buffers can be stated.
-/

namespace KInput

set_option maxRecDepth 4000

/-! ## Bytes, words and C strings -/

/-- Pointer-width dependent facts of `windows.h`: the width of `DWORD_PTR`,
`sizeof(IMAGE_NT_HEADERS)` and the offset of
`OptionalHeader.DataDirectory[IMAGE_DIRECTORY_ENTRY_EXPORT]` in it. -/
structure Arch where
  ptrBits : Nat
  sizeofNtHeaders : Nat
  exportEntryOffset : Nat
  deriving DecidableEq, Repr

/-- The 64-bit layout (`IMAGE_NT_HEADERS64`). -/
def x64 : Arch := ⟨64, 264, 136⟩

/-- The 32-bit layout (`IMAGE_NT_HEADERS32`). -/
def x86 : Arch := ⟨32, 248, 120⟩

/-- Addition on `DWORD_PTR`. -/
def padd (A : Arch) (a b : Nat) : Nat := (a + b) % 2 ^ A.ptrBits

/-- Conversion of a `LONG` (given by its 32-bit pattern) to `DWORD_PTR`:
sign extension. -/
def sext32 (A : Arch) (v : Nat) : Nat :=
  if v < 2 ^ 31 then v else 2 ^ A.ptrBits - 2 ^ 32 + v

/-- The value of a `LONG` given by its 32-bit pattern. -/
def long32 (v : Nat) : Int :=
  if v < 2 ^ 31 then (v : Int) else (v : Int) - 2 ^ 32

/-- Little-endian `WORD` at offset `off` of a buffer. -/
def le16 (bs : List Nat) (off : Nat) : Nat :=
  bs.getD off 0 + 256 * bs.getD (off + 1) 0

/-- Little-endian `DWORD` at offset `off` of a buffer. -/
def le32 (bs : List Nat) (off : Nat) : Nat :=
  bs.getD off 0 + 256 * bs.getD (off + 1) 0 + 65536 * bs.getD (off + 2) 0
    + 16777216 * bs.getD (off + 3) 0

/-- A buffer seen as an array of `DWORD`s. -/
def dwords : List Nat → List Nat
  | a :: b :: c :: d :: rest => (a + 256 * b + 65536 * c + 16777216 * d) :: dwords rest
  | _ => []

/-- A buffer seen as an array of `WORD`s. -/
def words : List Nat → List Nat
  | a :: b :: rest => (a + 256 * b) :: words rest
  | _ => []

/-- The CRT `tolower` in the "C" locale, on character codes. -/
def tolower (c : Nat) : Nat := if 65 ≤ c ∧ c ≤ 90 then c + 32 else c

/-- Outcome of a string comparison that reads one operand from a bounded
local buffer. -/
inductive Cmp where
  | eq
  | ne
  | overrun
  deriving DecidableEq, Repr

/-- The CRT `_stricmp(buf, s)`: `buf` is a local buffer (it may lack a
terminator), `s` the characters of a C string. Characters are compared after
`tolower` until they differ or both strings end; `overrun` is the case in
which the comparison runs past the end of the buffer. -/
def stricmpBuf : List Nat → List Nat → Cmp
  | [], _ => Cmp.overrun
  | b :: _, [] => if b = 0 then Cmp.eq else Cmp.ne
  | b :: bs, c :: cs =>
    if tolower b ≠ tolower c then Cmp.ne
    else if b = 0 then Cmp.eq
    else stricmpBuf bs cs

/-- The C string held by a buffer: its bytes before the first NUL. -/
def cstr (buf : List Nat) : List Nat := buf.takeWhile (fun b => b ≠ 0)

/-- The characters `".dll"`. -/
def dotDll : List Nat := [46, 100, 108, 108]

/-- The characters `".edata"`. -/
def dotEdata : List Nat := [46, 101, 100, 97, 116, 97]

/-! ## The remote process as seen through the Windows API -/

/-- One entry of the Toolhelp module snapshot (`MODULEENTRY32`): the module
name (characters before the NUL) and its base address. -/
structure MODULEENTRY32 where
  szModule : List Nat
  hModule : Nat
  deriving DecidableEq, Repr

/-- The operating system and the target processes, as far as the resolver
observes them. -/
structure World where
  /-- Layout the program was compiled for. -/
  arch : Arch
  /-- `OpenProcess(PROCESS_ALL_ACCESS, FALSE, pId)`; `0` is `NULL`. -/
  OpenProcess : Nat → Nat
  /-- The entries `Module32First`/`Module32Next` deliver for the module
  snapshot of a process id; empty when the snapshot or `Module32First` fails. -/
  modules : Nat → List MODULEENTRY32
  /-- The byte at an address of the process behind a handle; `none` where the
  address is not readable. -/
  memory : Nat → Nat → Option Nat

/-- `ReadProcessMemory(hProcess, addr, buf, n, NULL)`: the `n` bytes at `addr`,
or `none` (the call returns `FALSE`) when some byte of the range is not
readable. A read of zero bytes succeeds. -/
def ReadProcessMemory (w : World) (hProcess : Nat) : Nat → Nat → Option (List Nat)
  | _, 0 => some []
  | addr, n + 1 =>
    if addr < 2 ^ w.arch.ptrBits then
      match w.memory hProcess addr with
      | none => none
      | some b =>
        match ReadProcessMemory w hProcess (addr + 1) n with
        | none => none
        | some bs => some (b % 256 :: bs)
    else none

/-! ## Results and heap events -/

/-- What a call of the resolver hands back: a pointer (`0` is `NULL`), or
`fault` for an execution with undefined behaviour. -/
inductive Ret where
  | ptr (p : Nat)
  | fault
  deriving DecidableEq, Repr

/-- The local scratch buffers of the resolver. -/
inductive Buf where
  | peHeader
  | functions
  | names
  | ordinals
  deriving DecidableEq, Repr

/-- A `malloc` or `free` of a scratch buffer. -/
inductive HeapEv where
  | malloc (b : Buf)
  | free (b : Buf)
  deriving DecidableEq, Repr

/-- The three `free` calls that release the export arrays. -/
def freeArrays : List HeapEv :=
  [HeapEv.free Buf.functions, HeapEv.free Buf.names, HeapEv.free Buf.ordinals]

/-- The three `malloc` calls of lines 106-108. -/
def mallocArrays : List HeapEv :=
  [HeapEv.malloc Buf.functions, HeapEv.malloc Buf.names, HeapEv.malloc Buf.ordinals]

/-! ## GetRemoteModuleHandle -/

/-- Conversion `mbstowcs_s` applies to `szModule` in the "C" locale: each
byte becomes the wide character of the same value. -/
def widenUnsigned (s : List Nat) : List Nat := s.map (fun c => c % 256)

/-- Conversion of `wstring(module, module + strlen(module))`: each `char`
(signed) is converted to `wchar_t`. -/
def widenSigned (s : List Nat) : List Nat :=
  s.map (fun c => if c % 256 < 128 then c % 256 else c % 256 + 65280)

/-- The test `!_wcsicmp(moduleChar, wstring(module, ...).c_str())` of line 245. -/
def moduleNameMatches (szModule module : List Nat) : Bool :=
  decide ((widenUnsigned (cstr szModule)).map tolower = (widenSigned (cstr module)).map tolower)

/-- The `do ... while (Module32Next(...))` loop of lines 241-251 over the
entries of the snapshot. -/
def findModule (module : List Nat) : List MODULEENTRY32 → Nat
  | [] => 0
  | e :: es => if moduleNameMatches e.szModule module then e.hModule else findModule module es

/-- `GetRemoteModuleHandle(pId, module)` (lines 222-255). The result of
`Module32First` is not tested: with an empty snapshot the loop body runs on an
uninitialised `MODULEENTRY32`, which is `fault`. -/
def GetRemoteModuleHandle (w : World) (pId : Nat) (module : List Nat) : Ret :=
  match w.modules pId with
  | [] => Ret.fault
  | e :: es => Ret.ptr (findModule module (e :: es))

/-! ## GetRemoteModuleExportDirectory -/

/-- Result of `GetRemoteModuleExportDirectory`: `TRUE` with the bytes written
to `*ExportDirectory`, `FALSE`, or `fault`. -/
inductive ExportDirResult where
  | TRUE (dir : List Nat)
  | FALSE
  | fault
  deriving DecidableEq, Repr

/-- Outcome of the section loop of lines 296-309. -/
inductive SectionScan where
  | found (dir : List Nat)
  | finished
  | fault
  deriving DecidableEq, Repr

/-- The test `_stricmp((char*)pImageSectionHeader->Name, ".edata") == 0` for the
section header at byte offset `off` of the 1000-byte header buffer. -/
def sectionIsEdata (hdr : List Nat) (off : Int) : Cmp :=
  if off < 0 then Cmp.overrun else stricmpBuf (hdr.drop off.toNat) dotEdata

/-- The loop `for (i = 0; i < NumberOfSections; i++, pImageSectionHeader++)`
(lines 296-309): `n` sections remain, the current header is at offset `off`
of the header buffer (`sizeof(IMAGE_SECTION_HEADER)` is 40, `VirtualAddress`
is at offset 12). The pointer test of line 297 never fails. The export
directory of an `.edata` section is read at the section's `VirtualAddress`
as it stands, without the module base. -/
def sectionLoop (w : World) (hProcess : Nat) (hdr : List Nat) : Nat → Int → SectionScan
  | 0, _ => SectionScan.finished
  | n + 1, off =>
    match sectionIsEdata hdr off with
    | Cmp.overrun => SectionScan.fault
    | Cmp.ne => sectionLoop w hProcess hdr n (off + 40)
    | Cmp.eq =>
      if off.toNat + 16 ≤ hdr.length then
        match ReadProcessMemory w hProcess (le32 hdr (off.toNat + 12)) 40 with
        | none => sectionLoop w hProcess hdr n (off + 40)
        | some dir => SectionScan.found dir
      else SectionScan.fault

/-- `GetRemoteModuleExportDirectory(hProcess, hRemote, &EATDirectory, DosHeader,
NtHeaders)` (lines 257-320), with the fields of the two headers it uses:
`e_lfanew` (as its 32-bit pattern), `FileHeader.NumberOfSections` and
`DataDirectory[0].VirtualAddress`. The caller passes the address of a local
as `ExportDirectory`, so the test of line 283 never fails. The second
component lists the heap events of the call. -/
def GetRemoteModuleExportDirectory (w : World) (hProcess hRemote : Nat)
    (e_lfanew NumberOfSections dwEATAddress : Nat) : ExportDirResult × List HeapEv :=
  match ReadProcessMemory w hProcess hRemote 1000 with
  | none => (ExportDirResult.FALSE, [HeapEv.malloc Buf.peHeader])
  | some hdr =>
    match sectionLoop w hProcess hdr NumberOfSections
        (long32 e_lfanew + (w.arch.sizeofNtHeaders : Int)) with
    | SectionScan.fault => (ExportDirResult.fault, [HeapEv.malloc Buf.peHeader])
    | SectionScan.found dir =>
      (ExportDirResult.TRUE dir, [HeapEv.malloc Buf.peHeader, HeapEv.free Buf.peHeader])
    | SectionScan.finished =>
      if dwEATAddress = 0 then (ExportDirResult.FALSE, [HeapEv.malloc Buf.peHeader])
      else
        match ReadProcessMemory w hProcess (padd w.arch hRemote dwEATAddress) 40 with
        | none => (ExportDirResult.FALSE, [HeapEv.malloc Buf.peHeader])
        | some dir =>
          (ExportDirResult.TRUE dir, [HeapEv.malloc Buf.peHeader, HeapEv.free Buf.peHeader])

/-! ## GetRemoteFuncAddress -/

/-- The locals of `GetRemoteFuncAddress` that are live when the name loop
starts (line 138). -/
structure Tables where
  hProcess : Nat
  hRemote : Nat
  NumberOfFunctions : Nat
  NumberOfNames : Nat
  AddressOfFunctions : List Nat
  AddressOfNames : List Nat
  AddressOfOrdinals : List Nat
  dwExportBase : Nat
  dwExportSize : Nat
  deriving DecidableEq, Repr

/-- Outcome of lines 53-135: a `return` before the loop, or the tables. -/
inductive Loaded where
  | ret (r : Ret) (heap : List HeapEv)
  | tables (T : Tables) (heap : List HeapEv)
  deriving DecidableEq, Repr

/-- Lines 53-135 of `GetRemoteFuncAddress`: open the process, find the
module, read and check the DOS and NT headers, read the export directory
and the three export arrays. -/
def readExportTables (w : World) (pId : Nat) (module : List Nat) : Loaded :=
  let hProcess := w.OpenProcess pId
  if hProcess = 0 then Loaded.ret (Ret.ptr 0) []
  else
    match GetRemoteModuleHandle w pId module with
    | Ret.fault => Loaded.ret Ret.fault []
    | Ret.ptr hRemote =>
      if hRemote = 0 then Loaded.ret (Ret.ptr 0) []
      else
        match ReadProcessMemory w hProcess hRemote 64 with
        | none => Loaded.ret (Ret.ptr 0) []
        | some dos =>
          if le16 dos 0 ≠ 23117 then Loaded.ret (Ret.ptr 0) []
          else
            match ReadProcessMemory w hProcess (padd w.arch hRemote (sext32 w.arch (le32 dos 60)))
                w.arch.sizeofNtHeaders with
            | none => Loaded.ret (Ret.ptr 0) []
            | some nt =>
              if le32 nt 0 ≠ 17744 then Loaded.ret (Ret.ptr 0) []
              else
                match GetRemoteModuleExportDirectory w hProcess hRemote (le32 dos 60) (le16 nt 6)
                    (le32 nt w.arch.exportEntryOffset) with
                | (ExportDirResult.fault, h) => Loaded.ret Ret.fault h
                | (ExportDirResult.FALSE, h) => Loaded.ret (Ret.ptr 0) h
                | (ExportDirResult.TRUE dir, h) =>
                  let NumberOfFunctions := le32 dir 20
                  let NumberOfNames := le32 dir 24
                  match ReadProcessMemory w hProcess (padd w.arch hRemote (le32 dir 28))
                      ((NumberOfFunctions * 4) % 2 ^ w.arch.ptrBits) with
                  | none => Loaded.ret (Ret.ptr 0) (h ++ mallocArrays ++ freeArrays)
                  | some fs =>
                    match ReadProcessMemory w hProcess (padd w.arch hRemote (le32 dir 32))
                        ((NumberOfNames * 4) % 2 ^ w.arch.ptrBits) with
                    | none => Loaded.ret (Ret.ptr 0) (h ++ mallocArrays ++ freeArrays)
                    | some ns =>
                      match ReadProcessMemory w hProcess (padd w.arch hRemote (le32 dir 36))
                          ((NumberOfNames * 2) % 2 ^ w.arch.ptrBits) with
                      | none => Loaded.ret (Ret.ptr 0) (h ++ mallocArrays ++ freeArrays)
                      | some os =>
                        Loaded.tables
                          { hProcess := hProcess
                            hRemote := hRemote
                            NumberOfFunctions := NumberOfFunctions
                            NumberOfNames := NumberOfNames
                            AddressOfFunctions := dwords fs
                            AddressOfNames := dwords ns
                            AddressOfOrdinals := words os
                            dwExportBase :=
                              padd w.arch hRemote (le32 nt w.arch.exportEntryOffset)
                            dwExportSize :=
                              padd w.arch
                                (padd w.arch hRemote (le32 nt w.arch.exportEntryOffset))
                                (le32 nt (w.arch.exportEntryOffset + 4)) }
                          (h ++ mallocArrays)

/-- Outcome of one activation of `GetRemoteFuncAddress`: a `return` of a
value, or the tail call of line 179 with its two arguments. In both cases
with the heap events of the activation. -/
inductive Step where
  | done (r : Ret) (heap : List HeapEv)
  | recurse (module func : List Nat) (heap : List HeapEv)
  deriving DecidableEq, Repr

/-- Lines 158-179: split the forwarder string held by the 256-byte buffer
`pszRedirectName` at its first `'.'` (code 46), append `".dll"` to the module
part, free the arrays and recurse. The copy loops have no bound: a buffer
without `'.'`, or without a NUL after it, is read past its end; a `'.'` at
index 255 makes line 165 write past `pszModuleName`; `strcat_s` reports a
module part that leaves no room for `".dll"`. -/
def followForwarder (pszRedirectName : List Nat) : Step :=
  let a := pszRedirectName.findIdx (fun c => c = 46)
  if pszRedirectName.length ≤ a + 1 then Step.done Ret.fault []
  else
    let tail := pszRedirectName.drop (a + 1)
    if tail.all (fun c => c ≠ 0) then Step.done Ret.fault []
    else
      let pszModuleName := cstr (pszRedirectName.take a)
      if 256 < pszModuleName.length + 4 + 1 then Step.done Ret.fault []
      else Step.recurse (pszModuleName ++ dotDll) (cstr tail) freeArrays

/-- The name loop of lines 138-213 and the exit of lines 215-219: `n`
iterations remain and the loop counter is `i`. -/
def scanNames (w : World) (T : Tables) (func : List Nat) : Nat → Nat → Step
  | 0, _ => Step.done (Ret.ptr 0) freeArrays
  | n + 1, i =>
    match T.AddressOfFunctions[i]?, T.AddressOfNames[i]? with
    | some rvaFunction, some rvaName =>
      let dwAddressOfFunction := padd w.arch T.hRemote rvaFunction
      let dwAddressOfName := padd w.arch T.hRemote rvaName
      match ReadProcessMemory w T.hProcess dwAddressOfName 256 with
      | none => scanNames w T func n (i + 1)
      | some pszFunctionName =>
        match stricmpBuf pszFunctionName func with
        | Cmp.overrun => Step.done Ret.fault []
        | Cmp.ne => scanNames w T func n (i + 1)
        | Cmp.eq =>
          if T.dwExportBase ≤ dwAddressOfFunction ∧ dwAddressOfFunction ≤ T.dwExportSize then
            match ReadProcessMemory w T.hProcess dwAddressOfFunction 256 with
            | none => scanNames w T func n (i + 1)
            | some pszRedirectName => followForwarder pszRedirectName
          else
            match T.AddressOfOrdinals[i]? with
            | none => Step.done Ret.fault []
            | some OrdinalValue =>
              if T.NumberOfNames ≤ OrdinalValue then Step.done (Ret.ptr 0) []
              else if OrdinalValue ≠ i then
                match T.AddressOfFunctions[OrdinalValue]?, T.AddressOfNames[OrdinalValue]? with
                | some rvaRedirected, some rvaRedirectedName =>
                  match ReadProcessMemory w T.hProcess
                      (padd w.arch T.hRemote rvaRedirectedName) 256 with
                  | none => Step.done (Ret.ptr 0) freeArrays
                  | some _ => Step.done (Ret.ptr (padd w.arch T.hRemote rvaRedirected)) freeArrays
                | _, _ => Step.done Ret.fault []
              else Step.done (Ret.ptr dwAddressOfFunction) freeArrays
    | _, _ => Step.done Ret.fault []

/-- One activation of `GetRemoteFuncAddress(pId, module, func)`, up to its
`return` or its recursive call. -/
def resolveStep (w : World) (pId : Nat) (module func : List Nat) : Step :=
  match readExportTables w pId module with
  | Loaded.ret r h => Step.done r h
  | Loaded.tables T h =>
    match scanNames w T func T.NumberOfNames 0 with
    | Step.done r h2 => Step.done r (h ++ h2)
    | Step.recurse m f h2 => Step.recurse m f (h ++ h2)

/-- What a terminated call returns: the value and the heap events of all
activations, in order. -/
structure Result where
  ret : Ret
  heap : List HeapEv
  deriving DecidableEq, Repr

/-- `GetRemoteFuncAddress(pId, module, func)` (lines 33-220). The recursion of
line 179 has no bound in the source; the embedding bounds the number of
activations by `fuel` and yields `none` when they do not suffice. -/
def GetRemoteFuncAddress (w : World) : Nat → Nat → List Nat → List Nat → Option Result
  | 0, _, _, _ => none
  | fuel + 1, pId, module, func =>
    match resolveStep w pId module func with
    | Step.done r h => some ⟨r, h⟩
    | Step.recurse m f h =>
      match GetRemoteFuncAddress w fuel pId m f with
      | none => none
      | some res => some ⟨res.ret, h ++ res.heap⟩

/-- The pointer a call of the resolver returns, for the use of a caller: `none`
when the call does not return normally (it runs out of `fuel` or faults). -/
def resolverOf (w : World) (fuel : Nat) (pId : Nat) (module func : List Nat) : Option Nat :=
  match GetRemoteFuncAddress w fuel pId module func with
  | some ⟨Ret.ptr p, _⟩ => some p
  | _ => none

/-- Membership of an address in the export-directory range, as tested on
line 152. -/
def inExportRange (T : Tables) (addr : Nat) : Prop :=
  T.dwExportBase ≤ addr ∧ addr ≤ T.dwExportSize

instance (T : Tables) (addr : Nat) : Decidable (inExportRange T addr) := by
  unfold inExportRange; infer_instance

/-- Hypothesis on a name-table entry that the loop passes over: its name
pointer exists and the 256-byte read of the name fails (line 145) or the name
compares different from `func` (line 149). -/
def nameDiffers (w : World) (T : Tables) (func : List Nat) (j : Nat) : Bool :=
  match T.AddressOfNames[j]? with
  | none => false
  | some rvaName =>
    match ReadProcessMemory w T.hProcess (padd w.arch T.hRemote rvaName) 256 with
    | none => true
    | some pszFunctionName => decide (stricmpBuf pszFunctionName func = Cmp.ne)

/-- Hypothesis on a name-table entry that matches: its name pointer exists,
the 256-byte read of the name succeeds and `_stricmp` finds it equal to
`func`. -/
def nameMatches (w : World) (T : Tables) (func : List Nat) (i : Nat) : Bool :=
  match T.AddressOfNames[i]? with
  | none => false
  | some rvaName =>
    match ReadProcessMemory w T.hProcess (padd w.arch T.hRemote rvaName) 256 with
    | none => false
    | some pszFunctionName => decide (stricmpBuf pszFunctionName func = Cmp.eq)

/-- The loop passes over entry `j` (it reaches a `continue`): both slots of
the entry exist and either the 256-byte read of its name fails (line 145), or
the name compares different from `func` (line 149), or the name matches, the
function address lies in the export range and the 256-byte read of the
forwarder string fails (line 156). -/
def passesOver (w : World) (T : Tables) (func : List Nat) (j : Nat) : Bool :=
  match T.AddressOfFunctions[j]?, T.AddressOfNames[j]? with
  | some rvaFunction, some rvaName =>
    match ReadProcessMemory w T.hProcess (padd w.arch T.hRemote rvaName) 256 with
    | none => true
    | some pszFunctionName =>
      match stricmpBuf pszFunctionName func with
      | Cmp.overrun => false
      | Cmp.ne => true
      | Cmp.eq =>
        decide (inExportRange T (padd w.arch T.hRemote rvaFunction)) &&
          (ReadProcessMemory w T.hProcess (padd w.arch T.hRemote rvaFunction) 256).isNone
  | _, _ => false

/-! ## Injector -/

/-- The two exports of `Kernel32.dll` the injector looks up in its own
process. -/
inductive KernelExport where
  | LoadLibraryA
  | FreeLibrary
  deriving DecidableEq, Repr

/-- A call the injector issues: the local export lookup, the resolver, and
the operations on the target process and its threads. -/
inductive Op where
  | GetProcAddress (name : KernelExport)
  | GetRemoteFuncAddress (pId : Nat) (module func : List Nat)
  | VirtualAllocEx (hProcess size : Nat)
  | WriteProcessMemory (hProcess addr : Nat) (data : List Nat) (size : Nat)
  | CreateRemoteThread (hProcess start arg : Nat)
  | WaitForSingleObject (hThread : Nat)
  | GetExitCodeThread (hThread : Nat)
  | CloseHandle (h : Nat)
  | VirtualFreeEx (hProcess addr : Nat)
  deriving DecidableEq, Repr

/-- The answers of the environment to the calls of the injector. `PIDVALUE`
is the process id `CallExport` passes to the resolver (declared in
`Injector.hpp`). `resolver` is `GetRemoteFuncAddress` seen from its caller:
`none` when the call does not return normally. `GetExitCodeThread` gives the
exit code of a thread that was waited for, or `none` when the call fails. -/
structure Os where
  PIDVALUE : Nat
  GetProcAddress : KernelExport → Nat
  resolver : Nat → List Nat → List Nat → Option Nat
  VirtualAllocEx : Nat → Nat → Nat
  WriteProcessMemory : Nat → Nat → List Nat → Nat → Bool
  CreateRemoteThread : Nat → Nat → Nat → Nat
  GetExitCodeThread : Nat → Option Nat

/-- `Modules.count(path)` and `Modules[path]` of a `std::map<std::string,
void*>` kept as an association list: the value of the first entry with key
`path`. -/
def find (path : List Nat) : List (List Nat × Nat) → Option Nat
  | [] => none
  | (k, v) :: rest => if k = path then some v else find path rest

/-- The map after `Modules.erase(path)`. -/
def erase (path : List Nat) (m : List (List Nat × Nat)) : List (List Nat × Nat) :=
  m.filter (fun e => decide (e.1 ≠ path))

/-- The map after `Modules[path] = v`. -/
def assign (path : List Nat) (v : Nat) (m : List (List Nat × Nat)) : List (List Nat × Nat) :=
  (path, v) :: erase path m

/-- The members of class `Injector`: the process id, the process handle
(`0` when the process could not be opened or the handle was closed) and the
registry `Modules` from library path to remote handle. -/
structure Injector where
  PID : Nat
  ProcessHandle : Nat
  Modules : List (List Nat × Nat)
  deriving DecidableEq, Repr

/-- What a member function leaves: its return value, the injector after the
call and the calls issued, in order. -/
structure Outcome (α : Type) where
  result : α
  state : Injector
  ops : List Op
  deriving DecidableEq, Repr

/-- The characters `"KInput.dll"`. -/
def KInputDll : List Nat := [75, 73, 110, 112, 117, 116, 46, 100, 108, 108]

namespace Injector

/-- `Injector::Load(DLLPath)` (lines 38-73). The exit code of the remote
thread is a `DWORD` written into the pointer `DLL`. -/
def Load (os : Os) (self : Injector) (DLLPath : List Nat) : Outcome Nat :=
  if self.ProcessHandle = 0 then ⟨0, self, []⟩
  else
    match find DLLPath self.Modules with
    | some h => ⟨h, self, []⟩
    | none =>
      let LoadLib := os.GetProcAddress KernelExport.LoadLibraryA
      let t1 := [Op.GetProcAddress KernelExport.LoadLibraryA]
      if LoadLib = 0 then ⟨0, self, t1⟩
      else
        let size := DLLPath.length + 1
        let DLLEntry := os.VirtualAllocEx self.ProcessHandle size
        let t2 := t1 ++ [Op.VirtualAllocEx self.ProcessHandle size]
        if DLLEntry = 0 then ⟨0, self, t2⟩
        else
          let t3 := t2 ++ [Op.WriteProcessMemory self.ProcessHandle DLLEntry (DLLPath ++ [0]) size]
          let release := [Op.VirtualFreeEx self.ProcessHandle DLLEntry]
          if os.WriteProcessMemory self.ProcessHandle DLLEntry (DLLPath ++ [0]) size = false then
            ⟨0, self, t3 ++ release⟩
          else
            let RemoteThread := os.CreateRemoteThread self.ProcessHandle LoadLib DLLEntry
            let t4 := t3 ++ [Op.CreateRemoteThread self.ProcessHandle LoadLib DLLEntry]
            if RemoteThread = 0 then ⟨0, self, t4 ++ release⟩
            else
              let t5 := t4 ++ [Op.WaitForSingleObject RemoteThread,
                Op.GetExitCodeThread RemoteThread, Op.CloseHandle RemoteThread]
              match os.GetExitCodeThread RemoteThread with
              | none => ⟨0, self, t5 ++ release⟩
              | some code =>
                let DLL := code % 2 ^ 32
                if DLL = 0 then ⟨0, self, t5 ++ release⟩
                else ⟨DLL, { self with Modules := assign DLLPath DLL self.Modules }, t5 ++ release⟩

/-- `Injector::CallExport(void* DLL, ProcName, Data, Size)` (lines 92-137).
Both reachable branches of lines 102-107 choose `"KInput.dll"`. The exit code
is written over the `bool Result`, whose byte is the low byte of the code.
`none` when the resolver does not return normally. -/
def CallExportDLL (os : Os) (self : Injector) (DLL : Nat) (ProcName : List Nat)
    (Data : List Nat) (Size : Nat) : Option (Outcome Bool) :=
  if DLL = 0 then some ⟨false, self, []⟩
  else
    let t1 := [Op.GetRemoteFuncAddress os.PIDVALUE KInputDll (cstr ProcName)]
    match os.resolver os.PIDVALUE KInputDll (cstr ProcName) with
    | none => none
    | some Func =>
      if Func = 0 then some ⟨false, self, t1⟩
      else
        let DataEntry := os.VirtualAllocEx self.ProcessHandle Size
        let t2 := t1 ++ [Op.VirtualAllocEx self.ProcessHandle Size]
        if DataEntry = 0 then some ⟨false, self, t2⟩
        else
          let t3 := t2 ++ [Op.WriteProcessMemory self.ProcessHandle DataEntry Data Size]
          let release := [Op.VirtualFreeEx self.ProcessHandle DataEntry]
          if os.WriteProcessMemory self.ProcessHandle DataEntry Data Size = false then
            some ⟨false, self, t3 ++ release⟩
          else
            let RemoteThread := os.CreateRemoteThread self.ProcessHandle Func DataEntry
            let t4 := t3 ++ [Op.CreateRemoteThread self.ProcessHandle Func DataEntry]
            if RemoteThread = 0 then some ⟨false, self, t4 ++ release⟩
            else
              let t5 := t4 ++ [Op.WaitForSingleObject RemoteThread,
                Op.GetExitCodeThread RemoteThread, Op.CloseHandle RemoteThread]
              match os.GetExitCodeThread RemoteThread with
              | none => some ⟨false, self, t5 ++ release⟩
              | some code => some ⟨decide (code % 256 ≠ 0), self, t5 ++ release⟩

/-- `Injector::CallExport(std::string DLLPath, ProcName, Data, Size)`
(lines 75-90). -/
def CallExport (os : Os) (self : Injector) (DLLPath ProcName : List Nat)
    (Data : List Nat) (Size : Nat) : Option (Outcome Bool) :=
  if self.ProcessHandle = 0 then some ⟨false, self, []⟩
  else
    match find DLLPath self.Modules with
    | none => some ⟨false, self, []⟩
    | some DLL => CallExportDLL os self DLL ProcName Data Size

/-- `Injector::Free(DLLPath)` (lines 139-167). -/
def Free (os : Os) (self : Injector) (DLLPath : List Nat) : Outcome Bool :=
  if self.ProcessHandle = 0 then ⟨false, self, []⟩
  else
    match find DLLPath self.Modules with
    | none => ⟨true, self, []⟩
    | some DLL =>
      let FreeLib := os.GetProcAddress KernelExport.FreeLibrary
      let t1 := [Op.GetProcAddress KernelExport.FreeLibrary]
      if FreeLib = 0 then ⟨false, self, t1⟩
      else
        let RemoteThread := os.CreateRemoteThread self.ProcessHandle FreeLib DLL
        let t2 := t1 ++ [Op.CreateRemoteThread self.ProcessHandle FreeLib DLL]
        if RemoteThread = 0 then ⟨false, self, t2⟩
        else
          let t3 := t2 ++ [Op.WaitForSingleObject RemoteThread,
            Op.GetExitCodeThread RemoteThread, Op.CloseHandle RemoteThread]
          match os.GetExitCodeThread RemoteThread with
          | none => ⟨false, self, t3⟩
          | some Freed =>
            if Freed % 2 ^ 32 = 0 then ⟨false, self, t3⟩
            else ⟨true, { self with Modules := erase DLLPath self.Modules }, t3⟩

end Injector

/-! ## Concrete process images

Small 64-bit module images on which the definitions are evaluated. Every
image is `0x800` readable bytes, zero except for

* `0x000` the DOS header: `MZ`, and `e_lfanew = 0x40` at `0x3C`;
* `0x040` the NT headers: `PE\0\0`, no sections; the export entry of the data
  directory (at `0x40 + 136 = 0xC8`) holds the given RVA and the size `0x100`;
* `0x400` the export directory: at `0x414` the two counts and the RVAs
  `0x440`, `0x460`, `0x480` of the three arrays;
* `0x4A0` forwarder strings (inside the export range `0x400 .. 0x500`);
* `0x500` export names.
-/

/-- Bytes followed by zeros up to length `n`. -/
def padTo (n : Nat) (bs : List Nat) : List Nat := bs ++ List.replicate (n - bs.length) 0

/-- The four bytes of a `DWORD`. -/
def le32bytes (v : Nat) : List Nat :=
  [v % 256, v / 256 % 256, v / 65536 % 256, v / 16777216 % 256]

/-- The two bytes of a `WORD`. -/
def le16bytes (v : Nat) : List Nat := [v % 256, v / 256 % 256]

/-- The non-zero parts, by offset, of the image of a module with the given
export RVA, counts `NumberOfFunctions` and `NumberOfNames`, function RVAs,
name RVAs, name ordinals, bytes at `0x4A0` and bytes at `0x500`. -/
def testImage (exportRva nf nn : Nat) (funcs names ords : List Nat)
    (forwarders strings : List Nat) : List (Nat × List Nat) :=
  [ (0x000, [0x4D, 0x5A]),
    (0x03C, le32bytes 0x40),
    (0x040, [0x50, 0x45]),
    (0x0C8, le32bytes exportRva ++ le32bytes 0x100),
    (0x414, le32bytes nf ++ le32bytes nn ++ le32bytes 0x440 ++ le32bytes 0x460
      ++ le32bytes 0x480),
    (0x440, funcs.flatMap le32bytes),
    (0x460, names.flatMap le32bytes),
    (0x480, ords.flatMap le16bytes),
    (0x4A0, forwarders),
    (0x500, strings) ]

/-- The byte at offset `o` of an image given by its non-zero parts. -/
def patchByte : List (Nat × List Nat) → Nat → Nat
  | [], _ => 0
  | (off, bs) :: rest, o =>
    if off ≤ o ∧ o < off + bs.length then bs.getD (o - off) 0 else patchByte rest o

/-- The byte at an address, in a list of `0x800`-byte images given with their
bases. -/
def imageByte : List (Nat × List (Nat × List Nat)) → Nat → Option Nat
  | [], _ => none
  | (base, img) :: rest, a =>
    if base ≤ a ∧ a < base + 0x800 then some (patchByte img (a - base)) else imageByte rest a

/-- The world with one process, of id 1 and handle 7, whose modules are the
given names, bases and images. -/
def testWorld (mods : List (List Nat × Nat × List (Nat × List Nat))) : World where
  arch := x64
  OpenProcess := fun pId => if pId = 1 then 7 else 0
  modules := fun pId => if pId = 1 then mods.map (fun m => ⟨m.1, m.2.1⟩) else []
  memory := fun h a => if h = 7 then imageByte (mods.map (fun m => m.2)) a else none

/-- The characters `"k.dll"`. -/
def kDll : List Nat := [107, 46, 100, 108, 108]

/-- The characters `"Alpha"` and `"Beta"`, each in a 16-byte slot. -/
def alphaBeta : List Nat :=
  padTo 16 [65, 108, 112, 104, 97] ++ padTo 16 [66, 101, 116, 97]

/-- Module `k.dll` at `0x10000` exporting `Alpha` (RVA `0x1000`, ordinal 0)
and `Beta` (RVA `0x2000`, ordinal 1). -/
def plainWorld : World :=
  testWorld [(kDll, 0x10000,
    testImage 0x400 2 2 [0x1000, 0x2000] [0x500, 0x510] [0, 1] [] alphaBeta)]

/-- The tables the resolver reads from `k.dll` in `plainWorld`. -/
def plainTables : Tables where
  hProcess := 7
  hRemote := 0x10000
  NumberOfFunctions := 2
  NumberOfNames := 2
  AddressOfFunctions := [0x1000, 0x2000]
  AddressOfNames := [0x500, 0x510]
  AddressOfOrdinals := [0, 1]
  dwExportBase := 0x10400
  dwExportSize := 0x10500

/-- The heap events before the name loop when the export directory was read. -/
def loadedHeap : List HeapEv :=
  [HeapEv.malloc Buf.peHeader, HeapEv.free Buf.peHeader] ++ mallocArrays

/-- The characters `"t.dll"`. -/
def tDll : List Nat := [116, 46, 100, 108, 108]

/-- The characters `"Target"`. -/
def targetName : List Nat := [84, 97, 114, 103, 101, 116]

/-- The forwarder string `"t.Target"` with its terminator. -/
def fwdString : List Nat := [116, 46] ++ targetName ++ [0]

/-- The characters `"G"` and `"F"`, each in a 16-byte slot. -/
def namesGF : List Nat := padTo 16 [71] ++ padTo 16 [70]

/-- Module `k.dll` at `0x10000` with two functions (RVAs `0x1000`, `0x2000`)
and one name, `F`, whose ordinal entry is 1. -/
def gapWorld : World :=
  testWorld [(kDll, 0x10000, testImage 0x400 2 1 [0x1000, 0x2000] [0x500] [1] [] [70])]

/-- As `remapWorld`, but function 1 has the RVA `0x4A0` of the forwarder
string `"t.Target"`; `t.dll` is as in `forwardWorld`. -/
def remapForwardWorld : World :=
  testWorld
    [(kDll, 0x10000,
      testImage 0x400 2 2 [0x1000, 0x4A0] [0x500, 0x510] [1, 0] fwdString namesGF),
     (tDll, 0x20000, testImage 0x400 1 1 [0x3000] [0x500] [0] [] targetName)]

/-- The tables the resolver reads from `k.dll` in `remapForwardWorld`. -/
def remapForwardTables : Tables where
  hProcess := 7
  hRemote := 0x10000
  NumberOfFunctions := 2
  NumberOfNames := 2
  AddressOfFunctions := [0x1000, 0x4A0]
  AddressOfNames := [0x500, 0x510]
  AddressOfOrdinals := [1, 0]
  dwExportBase := 0x10400
  dwExportSize := 0x10500

/-- Module `k.dll` at `0x10000` without export directory: the export entry
of its data directory is zero. -/
def noExportWorld : World :=
  testWorld [(kDll, 0x10000, testImage 0 0 0 [] [] [] [] [])]

/-- An environment for the injector: both exports of `Kernel32.dll` are at
`0x7000`; the resolver is the embedded `GetRemoteFuncAddress` on `plainWorld`
(which has no `KInput.dll`); allocation in an opened process gives `0x9000`,
writes succeed, a thread created in an opened process has the handle `0x44`,
and its exit code is `code`. -/
def testOs (code : Option Nat) : Os where
  PIDVALUE := 1
  GetProcAddress := fun _ => 0x7000
  resolver := resolverOf plainWorld 2
  VirtualAllocEx := fun h _ => if h = 0 then 0 else 0x9000
  WriteProcessMemory := fun h _ _ _ => decide (h ≠ 0)
  CreateRemoteThread := fun h _ _ => if h = 0 then 0 else 0x44
  GetExitCodeThread := fun _ => code

/-- An injector attached to process 1 through the handle 7, with an empty
registry. -/
def attached : Injector := ⟨1, 7, []⟩

/-- An injector whose process could not be opened. -/
def unattached : Injector := ⟨1, 0, []⟩

/-- The path `"a.dll"`. -/
def aDll : List Nat := [97, 46, 100, 108, 108]

/-! ## Lemmas on the resolver -/

/-- The name loop passes over a run of `k` entries that it passes over one
by one. -/
theorem scanNames_skip (w : World) (T : Tables) (func : List Nat) :
    ∀ (k n start : Nat),
      (∀ j, start ≤ j → j < start + k → passesOver w T func j = true) →
      scanNames w T func (k + n) start = scanNames w T func n (start + k) := by
  intro k
  induction k with
  | zero => intro n start _; simp
  | succ k ih =>
    intro n start h
    have h0 := h start (Nat.le_refl _) (by omega)
    have hrest := ih n (start + 1) (fun j h1 h2 => h j (by omega) (by omega))
    have e1 : k + 1 + n = (k + n) + 1 := by omega
    have e2 : start + (k + 1) = start + 1 + k := by omega
    rw [e1, e2, ← hrest]
    unfold passesOver at h0
    conv_lhs => rw [scanNames]
    cases hF : T.AddressOfFunctions[start]? with
    | none => simp [hF] at h0
    | some rf =>
      cases hN : T.AddressOfNames[start]? with
      | none => simp [hF, hN] at h0
      | some rn =>
        simp only [hF, hN] at h0
        cases hR : ReadProcessMemory w T.hProcess (padd w.arch T.hRemote rn) 256 with
        | none => simp [hR]
        | some buf =>
          simp only [hR] at h0
          cases hC : stricmpBuf buf func with
          | overrun => simp [hC] at h0
          | ne => simp [hR, hC]
          | eq =>
            simp only [hC, Bool.and_eq_true, decide_eq_true_eq, Option.isNone_iff_eq_none] at h0
            unfold inExportRange at h0
            simp [hR, hC, h0.1, h0.2]

/-- The name loop reaches entry `i` when it passes over the entries
before it. -/
theorem scanNames_reach (w : World) (T : Tables) (func : List Nat) (i : Nat)
    (hi : i < T.NumberOfNames)
    (hbefore : ∀ j, j < i → passesOver w T func j = true) :
    scanNames w T func T.NumberOfNames 0
      = scanNames w T func (T.NumberOfNames - i - 1 + 1) i := by
  have hskip := scanNames_skip w T func i (T.NumberOfNames - i) 0
    (fun j _ hj => hbefore j (by omega))
  have e : i + (T.NumberOfNames - i) = T.NumberOfNames := by omega
  have e2 : T.NumberOfNames - i = T.NumberOfNames - i - 1 + 1 := by omega
  rw [e, Nat.zero_add] at hskip
  rw [hskip]
  congr 1

/-- An entry with a function slot whose name is unreadable or different is
passed over. -/
theorem passesOver_of_nameDiffers (w : World) (T : Tables) (func : List Nat) (j : Nat)
    (hlen : j < T.AddressOfFunctions.length) (h : nameDiffers w T func j = true) :
    passesOver w T func j = true := by
  unfold nameDiffers at h
  unfold passesOver
  rw [List.getElem?_eq_getElem hlen]
  cases hN : T.AddressOfNames[j]? with
  | none => simp [hN] at h
  | some rn =>
    simp only [hN] at h
    cases hR : ReadProcessMemory w T.hProcess (padd w.arch T.hRemote rn) 256 with
    | none => simp [hR]
    | some buf =>
      simp only [hR, decide_eq_true_eq] at h
      simp [hR, h]

/-- Tables come from an opened process and a module that was found. -/
theorem readExportTables_tables (w : World) (pId : Nat) (module : List Nat) (T : Tables)
    (heap : List HeapEv) (h : readExportTables w pId module = Loaded.tables T heap) :
    T.hProcess = w.OpenProcess pId ∧ T.hProcess ≠ 0 ∧
      GetRemoteModuleHandle w pId module = Ret.ptr T.hRemote ∧ T.hRemote ≠ 0 := by
  unfold readExportTables at h
  simp only at h
  split at h
  · cases h
  · split at h
    · cases h
    · split at h
      · cases h
      · split at h
        · cases h
        · split at h
          · cases h
          · split at h
            · cases h
            · split at h
              · cases h
              · split at h
                · cases h
                · cases h
                · split at h
                  · cases h
                  · split at h
                    · cases h
                    · split at h
                      · cases h
                      · simp only [Loaded.tables.injEq] at h
                        obtain ⟨hT, _⟩ := h
                        subst hT
                        simp_all

/-- One activation, once the tables are read, is the name loop. -/
theorem resolveStep_of_tables (w : World) (pId : Nat) (module func : List Nat) (T : Tables)
    (heap : List HeapEv) (h : readExportTables w pId module = Loaded.tables T heap) :
    resolveStep w pId module func =
      match scanNames w T func T.NumberOfNames 0 with
      | Step.done r h2 => Step.done r (heap ++ h2)
      | Step.recurse m f h2 => Step.recurse m f (heap ++ h2) := by
  unfold resolveStep
  rw [h]

/-- A slot that exists lies within the array. -/
theorem lt_length_of_getElem? {l : List Nat} {i v : Nat} (h : l[i]? = some v) :
    i < l.length := by
  by_contra hc
  rw [List.getElem?_eq_none (by omega)] at h
  cases h

/-! ## The claims on the resolver -/

/-- C1 (plain export). Suppose the process opens, the module is found, its
DOS and NT signatures are valid and the export directory and the three
export arrays are read (`readExportTables` yields the tables `T`). Let `i`
be the first index of the name table whose name is read and compares equal
to `func` (all earlier names are unreadable or different), with ordinal
entry `i` and with function address `hRemote + AddressOfFunctions[i]`
outside the export-directory range. Then `T.hRemote` is the module handle
and the call returns exactly `hRemote + AddressOfFunctions[i]`. -/
theorem plain_export_returns_function_slot
    (w : World) (fuel pId : Nat) (module func : List Nat) (T : Tables) (heap : List HeapEv)
    (i rva : Nat)
    (hload : readExportTables w pId module = Loaded.tables T heap)
    (hi : i < T.NumberOfNames)
    (hfirst : ∀ j, j < i → nameDiffers w T func j = true)
    (hmatch : nameMatches w T func i = true)
    (hslot : T.AddressOfFunctions[i]? = some rva)
    (hord : T.AddressOfOrdinals[i]? = some i)
    (hout : ¬ inExportRange T (padd w.arch T.hRemote rva)) :
    GetRemoteModuleHandle w pId module = Ret.ptr T.hRemote ∧
    (GetRemoteFuncAddress w (fuel + 1) pId module func).map Result.ret
      = some (Ret.ptr (padd w.arch T.hRemote rva)) := by
  refine ⟨(readExportTables_tables w pId module T heap hload).2.2.1, ?_⟩
  have hlen := lt_length_of_getElem? hslot
  have hreach := scanNames_reach w T func i hi
    (fun j hj => passesOver_of_nameDiffers w T func j (by omega) (hfirst j hj))
  unfold nameMatches at hmatch
  cases hN : T.AddressOfNames[i]? with
  | none => simp [hN] at hmatch
  | some rn =>
    simp only [hN] at hmatch
    cases hR : ReadProcessMemory w T.hProcess (padd w.arch T.hRemote rn) 256 with
    | none => simp [hR] at hmatch
    | some buf =>
      simp only [hR, decide_eq_true_eq] at hmatch
      have hscan : scanNames w T func T.NumberOfNames 0
          = Step.done (Ret.ptr (padd w.arch T.hRemote rva)) freeArrays := by
        rw [hreach, scanNames]
        unfold inExportRange at hout
        simp [hslot, hN, hR, hmatch, hout, hord, hi]
      unfold GetRemoteFuncAddress
      rw [resolveStep_of_tables w pId module func T heap hload, hscan]
      rfl

/-- C1 at `plainWorld`: the lookup of `beta` in `k.dll` (index 1, after
`Alpha`) returns `0x10000 + 0x2000`. -/
theorem plain_export_witness :
    (GetRemoteFuncAddress plainWorld 1 1 kDll [98, 101, 116, 97]).map Result.ret
      = some (Ret.ptr 0x12000) :=
  (plain_export_returns_function_slot plainWorld 0 1 kDll [98, 101, 116, 97]
    plainTables loadedHeap 1 0x2000
    (by decide!) (by decide)
    (by intro j hj; interval_cases j; decide!)
    (by decide!) (by decide) (by decide) (by decide)).2

/-- C4 fails at `remapForwardWorld`. The lookup of `G` in `k.dll` matches
index 0, whose own slot `0x1000` is outside the export range; its ordinal
entry is 1, and the call returns `0x10000 + AddressOfFunctions[1] = 0x104A0`,
a non-null address of the function-address table that lies inside the
export-directory range `0x10400 .. 0x10500` and holds the forwarder string
`"t.Target"`, not code. -/
theorem remapped_forwarder_is_returned :
    readExportTables remapForwardWorld 1 kDll = Loaded.tables remapForwardTables loadedHeap
    ∧ remapForwardTables.AddressOfFunctions[1]? = some 0x4A0
    ∧ (GetRemoteFuncAddress remapForwardWorld 1 1 kDll [71]).map Result.ret
        = some (Ret.ptr (padd remapForwardWorld.arch remapForwardTables.hRemote 0x4A0))
    ∧ padd remapForwardWorld.arch remapForwardTables.hRemote 0x4A0 ≠ 0
    ∧ inExportRange remapForwardTables
        (padd remapForwardWorld.arch remapForwardTables.hRemote 0x4A0)
    ∧ ReadProcessMemory remapForwardWorld 7
        (padd remapForwardWorld.arch remapForwardTables.hRemote 0x4A0) 9 = some fwdString := by
  decide!

/-- C9 fails. In `gapWorld` the lookup of `F` leaves through line 186 (ordinal
entry not below `NumberOfNames`): the call returns `NULL` and none of the three
arrays allocated on lines 106-108 is freed. In `noExportWorld` (export RVA
zero) `GetRemoteModuleExportDirectory` returns `FALSE` through line 313 with the
1000-byte header buffer still allocated, and so does the call of
`GetRemoteFuncAddress` that contains it. -/
theorem scratch_buffers_not_released :
    GetRemoteFuncAddress gapWorld 1 1 kDll [70]
        = some ⟨Ret.ptr 0, [HeapEv.malloc Buf.peHeader, HeapEv.free Buf.peHeader,
            HeapEv.malloc Buf.functions, HeapEv.malloc Buf.names, HeapEv.malloc Buf.ordinals]⟩
    ∧ GetRemoteModuleExportDirectory noExportWorld 7 0x10000 0x40 0 0
        = (ExportDirResult.FALSE, [HeapEv.malloc Buf.peHeader])
    ∧ GetRemoteFuncAddress noExportWorld 1 1 kDll [70]
        = some ⟨Ret.ptr 0, [HeapEv.malloc Buf.peHeader]⟩ := by
  decide!

/-- After `Modules[path] = v` the entry of `path` is `v`. -/
theorem find_assign_self (path : List Nat) (v : Nat) (m : List (List Nat × Nat)) :
    find path (assign path v m) = some v := by
  simp [assign, find]

/-- After `Modules.erase(path)` the map has no entry for `path`. -/
theorem find_erase_self (path : List Nat) (m : List (List Nat × Nat)) :
    find path (erase path m) = none := by
  induction m with
  | nil => rfl
  | cons e m ih =>
    obtain ⟨k, v⟩ := e
    unfold erase at ih ⊢
    rw [List.filter_cons]
    by_cases hk : k = path
    · simpa [hk] using ih
    · simpa [hk, find] using ih

/-- `Modules.erase(path)` leaves the entries of the other keys. -/
theorem find_erase_ne (path q : List Nat) (m : List (List Nat × Nat)) (h : q ≠ path) :
    find q (erase path m) = find q m := by
  induction m with
  | nil => rfl
  | cons e m ih =>
    obtain ⟨k, v⟩ := e
    unfold erase at ih ⊢
    rw [List.filter_cons]
    by_cases hk : k = path
    · have hq : ¬ path = q := fun e => h e.symm
      simpa [hk, find, hq] using ih
    · by_cases hq : k = q
      · subst hq
        simp [hk, find]
      · simpa [hk, find, hq] using ih

/-! ## The claims on the injector -/

/-- C5 as stated fails. With an attached injector, an empty registry and a
remote `LoadLibraryA` that fails (exit code 0), both consecutive calls
`Load("a.dll")` return `NULL` and each of them creates a remote thread: the
injection sequence runs twice. When the second remote call succeeds (exit
code 5), the two calls return different handles and the second call changes
the registry. -/
theorem load_twice_injects_twice :
    ((Injector.Load (testOs (some 0)) attached aDll).result = 0
      ∧ (Injector.Load (testOs (some 0)) attached aDll).state = attached
      ∧ (Injector.Load (testOs (some 0)) attached aDll).ops.count
          (Op.CreateRemoteThread 7 0x7000 0x9000) = 1
      ∧ (Injector.Load (testOs (some 0))
          (Injector.Load (testOs (some 0)) attached aDll).state aDll).ops.count
          (Op.CreateRemoteThread 7 0x7000 0x9000) = 1)
    ∧ ((Injector.Load (testOs (some 5))
          (Injector.Load (testOs (some 0)) attached aDll).state aDll).result = 5
      ∧ (Injector.Load (testOs (some 5))
          (Injector.Load (testOs (some 0)) attached aDll).state aDll).state.Modules
          = [(aDll, 5)]) := by
  decide

/-- A call `Load(path)` that returns a non-null handle leaves an attached
injector whose registry maps `path` to that handle. -/
theorem load_registers (os : Os) (self : Injector) (DLLPath : List Nat)
    (h : (Injector.Load os self DLLPath).result ≠ 0) :
    (Injector.Load os self DLLPath).state.ProcessHandle ≠ 0 ∧
      find DLLPath (Injector.Load os self DLLPath).state.Modules
        = some (Injector.Load os self DLLPath).result := by
  unfold Injector.Load at h ⊢
  simp only at h ⊢
  repeat' split
  all_goals simp_all [find_assign_self]

/-- C5, amended. When a call `Load(path)` returns a non-null handle, the next
call `Load(path)` returns the same handle, leaves the injector (and with it the
registry) unchanged and issues no call at all: the injection sequence runs at
most once over the two calls. -/
theorem load_idempotent_after_success (os1 os2 : Os) (self : Injector) (DLLPath : List Nat)
    (h : (Injector.Load os1 self DLLPath).result ≠ 0) :
    Injector.Load os2 (Injector.Load os1 self DLLPath).state DLLPath
      = ⟨(Injector.Load os1 self DLLPath).result, (Injector.Load os1 self DLLPath).state, []⟩ := by
  obtain ⟨h1, h2⟩ := load_registers os1 self DLLPath h
  generalize (Injector.Load os1 self DLLPath).state = S at h1 h2
  generalize (Injector.Load os1 self DLLPath).result = r at h2
  simp [Injector.Load, h1, h2]

/-- C5 amended, at a successful first load: exit code 5. -/
theorem load_idempotent_witness :
    Injector.Load (testOs (some 9)) (Injector.Load (testOs (some 5)) attached aDll).state aDll
      = ⟨5, ⟨1, 7, [(aDll, 5)]⟩, []⟩ :=
  load_idempotent_after_success (testOs (some 5)) (testOs (some 9)) attached aDll (by decide)
/-- A call `Free(path)` that reports success on a registered path has
erased it. -/
theorem free_success_erases (os : Os) (self : Injector) (DLLPath : List Nat)
    (hin : find DLLPath self.Modules ≠ none)
    (hok : (Injector.Free os self DLLPath).result = true) :
    (Injector.Free os self DLLPath).state
      = { self with Modules := erase DLLPath self.Modules } := by
  unfold Injector.Free at hok ⊢
  simp only at hok ⊢
  repeat' split
  all_goals simp_all

/-- C6. For every injector and every path present in the registry: if
`Free(path)` reports success, then the path is no longer in the registry,
every other entry of the registry is unchanged, and a following call
`CallExport(path, name, data, size)` returns `false`, for every name, data
and size (and every environment), without calling the resolver and without
any remote operation. -/
theorem free_then_call_export_fails (os os2 : Os) (self : Injector) (DLLPath : List Nat)
    (hin : find DLLPath self.Modules ≠ none)
    (hok : (Injector.Free os self DLLPath).result = true) :
    find DLLPath (Injector.Free os self DLLPath).state.Modules = none
    ∧ (∀ q, q ≠ DLLPath →
        find q (Injector.Free os self DLLPath).state.Modules = find q self.Modules)
    ∧ (∀ (ProcName Data : List Nat) (Size : Nat),
        Injector.CallExport os2 (Injector.Free os self DLLPath).state DLLPath ProcName Data Size
          = some ⟨false, (Injector.Free os self DLLPath).state, []⟩) := by
  rw [free_success_erases os self DLLPath hin hok]
  refine ⟨find_erase_self _ _, fun q hq => find_erase_ne _ _ _ hq, ?_⟩
  intro ProcName Data Size
  unfold Injector.CallExport
  simp only [find_erase_self]
  split <;> rfl

/-- C6 at an injector with `a.dll` registered under the handle 5, when the
remote `FreeLibrary` returns 1. -/
theorem free_then_call_export_witness :
    find aDll (Injector.Free (testOs (some 1)) ⟨1, 7, [(aDll, 5), (kDll, 6)]⟩ aDll).state.Modules
        = none
    ∧ find kDll (Injector.Free (testOs (some 1)) ⟨1, 7, [(aDll, 5), (kDll, 6)]⟩ aDll).state.Modules
        = some 6
    ∧ Injector.CallExport (testOs (some 1))
        (Injector.Free (testOs (some 1)) ⟨1, 7, [(aDll, 5), (kDll, 6)]⟩ aDll).state
        aDll [102] [1, 2, 3] 3
        = some ⟨false, ⟨1, 7, [(kDll, 6)]⟩, []⟩ :=
  have h := free_then_call_export_fails (testOs (some 1)) (testOs (some 1))
    ⟨1, 7, [(aDll, 5), (kDll, 6)]⟩ aDll (by decide) (by decide)
  ⟨h.1, h.2.1 kDll (by decide), h.2.2 [102] [1, 2, 3] 3⟩

/-- C7 as stated fails: for the injector whose process could not be opened
(null process handle) and the path `a.dll`, absent from its registry, `Free`
returns `false`. -/
theorem free_absent_unattached_fails :
    find aDll unattached.Modules = none
    ∧ Injector.Free (testOs (some 1)) unattached aDll = ⟨false, unattached, []⟩ := by
  decide

/-- C7, amended. For every injector with a non-null process handle and every
path that is not a key of the registry, `Free(path)` returns `true`, issues
no call (no remote thread is created) and leaves the injector, and with it
the registry, unchanged. -/
theorem free_absent_is_noop (os : Os) (self : Injector) (DLLPath : List Nat)
    (hattached : self.ProcessHandle ≠ 0) (habsent : find DLLPath self.Modules = none) :
    Injector.Free os self DLLPath = ⟨true, self, []⟩ := by
  simp [Injector.Free, hattached, habsent]

/-- C7 amended, at the attached injector with the empty registry. -/
theorem free_absent_witness :
    Injector.Free (testOs (some 1)) attached aDll = ⟨true, attached, []⟩ :=
  free_absent_is_noop (testOs (some 1)) attached aDll (by decide) (by decide)

/-- With a null process handle `Load`, `CallExport` by path and `Free` return
at once. -/
theorem unattached_guarded_calls (os : Os) (self : Injector) (DLLPath ProcName Data : List Nat)
    (Size : Nat) (h : self.ProcessHandle = 0) :
    Injector.Load os self DLLPath = ⟨0, self, []⟩
    ∧ Injector.CallExport os self DLLPath ProcName Data Size = some ⟨false, self, []⟩
    ∧ Injector.Free os self DLLPath = ⟨false, self, []⟩ := by
  simp [Injector.Load, Injector.CallExport, Injector.Free, h]

/-- C8 fails for the overload of `CallExport` that takes the remote handle:
it does not test the process handle. On the injector whose process could not
be opened, `CallExport((void*)0x5000, "f", data, 3)` calls the resolver
(`GetRemoteFuncAddress(PIDVALUE, "KInput.dll", "f")`) before it returns
`false`. -/
theorem unattached_call_export_calls_resolver :
    unattached.ProcessHandle = 0
    ∧ Injector.CallExportDLL (testOs (some 1)) unattached 0x5000 [102] [1, 2, 3] 3
        = some ⟨false, unattached, [Op.GetRemoteFuncAddress 1 KInputDll [102]]⟩ := by
  decide!

end KInput
